import Mathlib

/-!
Shallow embedding of the streaming AI-chat server (`src/server.ts`, types in
`src/types.ts`): the persistent message log, the session directory, the
presence-dependent streaming orchestrator (`startAIStream`) and the socket
event handlers (`register`, `session_create`, `session_open`, `ai_send`).

Modelling conventions:
- The JSON file stores are modelled as in-memory lists (`List Message`,
  `List SessionItem`); `writeStore`/`writeSessions` are modelled by returning
  the new list, and "a write occurred" is modelled by a separate boolean
  mirroring the code's `changed` flag.
- `crypto.randomUUID()` and `Date.now()` are modelled as supplies
  (`Nat → String`, `Nat → Nat`) indexed by call counters threaded through the
  state.
- The volatile `onlineUsers` map is read by the orchestrator at many distinct
  moments; each read is modelled by an explicit `Option String` value attached
  to the program point (presence at start, at each feed event, at finish).
- The generation engine (`agent.streamText`) is a black box; its observable
  feed is a list of typed events, and a run's outcome records whether an error
  was thrown during feed consumption or while resolving the final text.
-/

namespace SocketTest

/-- The `role` field of a persisted message (`'user' | 'ai' | 'system'`). -/
inductive Role where
  | user
  | ai
  | system
deriving DecidableEq, Repr

/-- Type `MessageBody` from `types.ts`: a tagged variant. -/
inductive MessageBody where
  | text (content : String)
  | tool_use (content : String)
  | tool_result (content : String)
deriving DecidableEq, Repr

/-- Record `Message` from `types.ts`. The source field `to` (owning user id) is
renamed `toUser` because `to` is a reserved word in Lean. -/
structure Message where
  id : String
  toUser : String
  sessionId : String
  timestamp : Nat
  delivered : Bool
  deliveredAt : Option Nat := none
  role : Role
  message : MessageBody
deriving DecidableEq, Repr

/-- Record `SessionItem` from `types.ts`. -/
structure SessionItem where
  id : String
  userId : String
  title : String
  createdAt : Nat
  updatedAt : Nat
deriving DecidableEq, Repr

/-! ### Persistent message log (`addMessage`, `markMessagesDelivered`) -/

/-- Function `addMessage(msg)`: `data.messages.push(msg)` then write. -/
def addMessage (msg : Message) (msgs : List Message) : List Message :=
  msgs ++ [msg]

/-- The per-record update performed inside `markMessagesDelivered`'s `map`:
`ids.includes(m.id) && !m.delivered ? {...m, delivered: true, deliveredAt: now} : m`. -/
def markOne (ids : List String) (now : Nat) (m : Message) : Message :=
  if ids.contains m.id && !m.delivered then
    { m with delivered := true, deliveredAt := some now }
  else m

/-- Function `markMessagesDelivered(ids)`: early return on an empty id list; otherwise map
`markOne` over the log and write back only if some record changed (when nothing
changed the persisted file keeps the original list). `now` is the single
`Date.now()` taken inside the function. -/
def markMessagesDelivered (ids : List String) (now : Nat) (msgs : List Message) :
    List Message :=
  if ids.isEmpty then msgs
  else if msgs.any (fun m => ids.contains m.id && !m.delivered) then
    msgs.map (markOne ids now)
  else msgs

/-- Whether `markMessagesDelivered(ids)` performs a store write: the code's
`changed` flag guarded by the non-empty early return. -/
def markMessagesDeliveredWrites (ids : List String) (msgs : List Message) : Bool :=
  !ids.isEmpty && msgs.any (fun m => ids.contains m.id && !m.delivered)

/-- Spec-level description of `markDelivered(ids)` (written from the spec's
words, for comparison with the source translation): pointwise, every record
whose id is listed and which is currently undelivered gets `delivered=true` and
`deliveredAt` stamped; every other record is untouched. -/
def markDeliveredSpec (ids : List String) (now : Nat) (msgs : List Message) :
    List Message :=
  msgs.map (fun m =>
    if ids.contains m.id && !m.delivered then
      { m with delivered := true, deliveredAt := some now }
    else m)

lemma markOne_of_not_mem (ids : List String) (now : Nat) (m : Message)
    (h : ids.contains m.id = false) : markOne ids now m = m := by
  unfold markOne
  simp only [h]
  simp

lemma markOne_of_delivered (ids : List String) (now : Nat) (m : Message)
    (h : m.delivered = true) : markOne ids now m = m := by
  unfold markOne
  simp only [h]
  simp

lemma markOne_id (ids : List String) (now : Nat) (m : Message) :
    (markOne ids now m).id = m.id := by
  unfold markOne; split <;> rfl

lemma markOne_toUser (ids : List String) (now : Nat) (m : Message) :
    (markOne ids now m).toUser = m.toUser := by
  unfold markOne; split <;> rfl

lemma markOne_sessionId (ids : List String) (now : Nat) (m : Message) :
    (markOne ids now m).sessionId = m.sessionId := by
  unfold markOne; split <;> rfl

lemma markOne_timestamp (ids : List String) (now : Nat) (m : Message) :
    (markOne ids now m).timestamp = m.timestamp := by
  unfold markOne; split <;> rfl

lemma markOne_role (ids : List String) (now : Nat) (m : Message) :
    (markOne ids now m).role = m.role := by
  unfold markOne; split <;> rfl

lemma markOne_message (ids : List String) (now : Nat) (m : Message) :
    (markOne ids now m).message = m.message := by
  unfold markOne; split <;> rfl

lemma markOne_delivered_mono (ids : List String) (now : Nat) (m : Message)
    (h : m.delivered = true) : (markOne ids now m).delivered = true := by
  rw [markOne_of_delivered ids now m h]; exact h

/-- The source translation agrees with the pointwise spec description: the
early returns only skip writes that would not have changed anything. -/
lemma markMessagesDelivered_eq_spec (ids : List String) (now : Nat)
    (msgs : List Message) :
    markMessagesDelivered ids now msgs = markDeliveredSpec ids now msgs := by
  unfold markMessagesDelivered markDeliveredSpec
  by_cases hids : ids.isEmpty = true
  · have h0 : ids = [] := List.isEmpty_iff.mp hids
    subst h0
    simp
  · rw [if_neg hids]
    by_cases hch : msgs.any (fun m => ids.contains m.id && !m.delivered) = true
    · rw [if_pos hch]
      rfl
    · rw [if_neg hch]
      have hall : ∀ m ∈ msgs, (ids.contains m.id && !m.delivered) = false := by
        intro m hm
        by_contra hcon
        have hx : msgs.any (fun m => ids.contains m.id && !m.delivered) = true :=
          List.any_eq_true.mpr ⟨m, hm, by
            cases h : (ids.contains m.id && !m.delivered) with
            | true => rfl
            | false => exact absurd h hcon⟩
        exact hch hx
      symm
      calc msgs.map (fun m =>
            if ids.contains m.id && !m.delivered then
              { m with delivered := true, deliveredAt := some now }
            else m)
          = msgs.map id := by
            apply List.map_congr_left
            intro m hm
            simp only [hall m hm]
            simp
        _ = msgs := List.map_id msgs

lemma markMessagesDelivered_map (ids : List String) (now : Nat)
    (msgs : List Message) :
    markMessagesDelivered ids now msgs = msgs.map (markOne ids now) := by
  rw [markMessagesDelivered_eq_spec]
  rfl

lemma markMessagesDelivered_append (ids : List String) (now : Nat)
    (xs ys : List Message) :
    markMessagesDelivered ids now (xs ++ ys) =
      markMessagesDelivered ids now xs ++ markMessagesDelivered ids now ys := by
  simp [markMessagesDelivered_map]

/-- A log none of whose ids are listed is untouched by `markMessagesDelivered`. -/
lemma markMessagesDelivered_of_fresh (ids : List String) (now : Nat)
    (msgs : List Message) (h : ∀ m ∈ msgs, ids.contains m.id = false) :
    markMessagesDelivered ids now msgs = msgs := by
  rw [markMessagesDelivered_map]
  calc msgs.map (markOne ids now) = msgs.map id := by
        apply List.map_congr_left
        intro m hm
        simp [markOne_of_not_mem ids now m (h m hm)]
    _ = msgs := List.map_id msgs

lemma markOne_idem (ids : List String) (now1 now2 : Nat) (m : Message) :
    markOne ids now2 (markOne ids now1 m) = markOne ids now1 m := by
  by_cases hc : (ids.contains m.id && !m.delivered) = true
  · have h1 : markOne ids now1 m =
        { m with delivered := true, deliveredAt := some now1 } := by
      unfold markOne
      rw [if_pos hc]
    rw [h1]
    exact markOne_of_delivered _ _ _ rfl
  · have h1 : markOne ids now1 m = m := by
      unfold markOne
      rw [if_neg hc]
    rw [h1]
    unfold markOne
    rw [if_neg hc]

/-! ### Store operation sequences (for the append-only invariant) -/

/-- The two mutations the server ever performs on the message log. -/
inductive StoreOp where
  | add (m : Message)
  | mark (ids : List String) (now : Nat)

/-- Apply one store operation to the log. -/
def applyOp (msgs : List Message) : StoreOp → List Message
  | .add m => addMessage m msgs
  | .mark ids now => markMessagesDelivered ids now msgs

/-- Apply a sequence of store operations, oldest first. -/
def applyOps (msgs : List Message) (ops : List StoreOp) : List Message :=
  ops.foldl applyOp msgs

/-- All fields of a persisted message except `delivered`/`deliveredAt` agree. -/
def coreEq (m m' : Message) : Prop :=
  m'.id = m.id ∧ m'.toUser = m.toUser ∧ m'.sessionId = m.sessionId ∧
    m'.timestamp = m.timestamp ∧ m'.role = m.role ∧ m'.message = m.message

lemma coreEq_refl (m : Message) : coreEq m m :=
  ⟨rfl, rfl, rfl, rfl, rfl, rfl⟩

lemma coreEq_trans {a b c : Message} (h1 : coreEq a b) (h2 : coreEq b c) :
    coreEq a c := by
  obtain ⟨i1, t1, s1, ts1, r1, b1⟩ := h1
  obtain ⟨i2, t2, s2, ts2, r2, b2⟩ := h2
  exact ⟨i2.trans i1, t2.trans t1, s2.trans s1, ts2.trans ts1, r2.trans r1,
    b2.trans b1⟩

lemma applyOp_preserves (op : StoreOp) (msgs : List Message) (i : Nat)
    (h : i < msgs.length) :
    ∃ h' : i < (applyOp msgs op).length,
      coreEq (msgs.get ⟨i, h⟩) ((applyOp msgs op).get ⟨i, h'⟩) ∧
        ((msgs.get ⟨i, h⟩).delivered = true →
          ((applyOp msgs op).get ⟨i, h'⟩).delivered = true) := by
  cases op with
  | add m =>
    have hlen : i < (applyOp msgs (StoreOp.add m)).length := by
      simp only [applyOp, addMessage, List.length_append, List.length_cons]
      omega
    refine ⟨hlen, ?_, ?_⟩
    · have : (applyOp msgs (StoreOp.add m)).get ⟨i, hlen⟩ = msgs.get ⟨i, h⟩ := by
        simp only [applyOp, addMessage]
        exact List.getElem_append_left h
      rw [this]
      exact coreEq_refl _
    · intro hd
      have : (applyOp msgs (StoreOp.add m)).get ⟨i, hlen⟩ = msgs.get ⟨i, h⟩ := by
        simp only [applyOp, addMessage]
        exact List.getElem_append_left h
      rw [this]
      exact hd
  | mark ids now =>
    have hmap : applyOp msgs (StoreOp.mark ids now) = msgs.map (markOne ids now) :=
      markMessagesDelivered_map ids now msgs
    have hlen : i < (applyOp msgs (StoreOp.mark ids now)).length := by
      rw [hmap, List.length_map]
      exact h
    have hget : (applyOp msgs (StoreOp.mark ids now)).get ⟨i, hlen⟩ =
        markOne ids now (msgs.get ⟨i, h⟩) := by
      simp only [List.get_eq_getElem]
      rw [List.getElem_of_eq hmap hlen]
      exact List.getElem_map (markOne ids now)
    refine ⟨hlen, ?_, ?_⟩
    · rw [hget]
      exact ⟨markOne_id _ _ _, markOne_toUser _ _ _, markOne_sessionId _ _ _,
        markOne_timestamp _ _ _, markOne_role _ _ _, markOne_message _ _ _⟩
    · intro hd
      rw [hget]
      exact markOne_delivered_mono _ _ _ hd

/-- Sample persisted record used to instantiate theorems on concrete inputs. -/
def exMsgA : Message :=
  { id := "m-a", toUser := "alice", sessionId := "s1", timestamp := 10,
    delivered := false, deliveredAt := none, role := Role.user,
    message := MessageBody.text "hi" }

/-- A second sample record, already delivered. -/
def exMsgB : Message :=
  { id := "m-b", toUser := "alice", sessionId := "s1", timestamp := 20,
    delivered := true, deliveredAt := some 21, role := Role.ai,
    message := MessageBody.text "hello" }

/-- C3: across any sequence of `addMessage`/`markMessagesDelivered` operations,
every already-persisted message survives at its position with `id`, `to`,
`sessionId`, `timestamp`, `role` and body unchanged (only
`delivered`/`deliveredAt` may change), and a `delivered=true` flag is never
reverted. -/
theorem log_append_only_C3 (ops : List StoreOp) (msgs : List Message)
    (i : Nat) (h : i < msgs.length) :
    ∃ h' : i < (applyOps msgs ops).length,
      coreEq (msgs.get ⟨i, h⟩) ((applyOps msgs ops).get ⟨i, h'⟩) ∧
        ((msgs.get ⟨i, h⟩).delivered = true →
          ((applyOps msgs ops).get ⟨i, h'⟩).delivered = true) := by
  induction ops generalizing msgs with
  | nil => exact ⟨h, coreEq_refl _, fun hd => hd⟩
  | cons op ops ih =>
    obtain ⟨h1, hc1, hd1⟩ := applyOp_preserves op msgs i h
    obtain ⟨h2, hc2, hd2⟩ := ih (applyOp msgs op) h1
    exact ⟨h2, coreEq_trans hc1 hc2, fun hd => hd2 (hd1 hd)⟩

/-- Witness for C3 at a concrete log and operation sequence. -/
theorem log_append_only_C3_witness :
    ∃ h' : 0 < (applyOps [exMsgB]
        [StoreOp.add exMsgA, StoreOp.mark ["m-b", "m-a"] 30]).length,
      coreEq ([exMsgB].get ⟨0, by decide⟩)
          ((applyOps [exMsgB]
            [StoreOp.add exMsgA, StoreOp.mark ["m-b", "m-a"] 30]).get ⟨0, h'⟩) ∧
        (([exMsgB].get ⟨0, by decide⟩).delivered = true →
          ((applyOps [exMsgB]
            [StoreOp.add exMsgA, StoreOp.mark ["m-b", "m-a"] 30]).get
              ⟨0, h'⟩).delivered = true) :=
  log_append_only_C3 [StoreOp.add exMsgA, StoreOp.mark ["m-b", "m-a"] 30]
    [exMsgB] 0 (by decide)

/-- C5: `markMessagesDelivered` is idempotent; it coincides with the pointwise
description that sets `delivered=true` and stamps `deliveredAt` exactly on the
listed currently-undelivered records, ignoring unknown or already-delivered
ids; and no store write happens precisely when no record changes (in
particular on an empty id list). -/
theorem mark_delivered_idempotent_C5 (ids : List String) (now1 now2 : Nat)
    (msgs : List Message) :
    markMessagesDelivered ids now2 (markMessagesDelivered ids now1 msgs) =
        markMessagesDelivered ids now1 msgs ∧
      markMessagesDelivered ids now1 msgs = markDeliveredSpec ids now1 msgs ∧
      (markMessagesDeliveredWrites ids msgs = false →
        markMessagesDelivered ids now1 msgs = msgs) ∧
      (markMessagesDeliveredWrites ids msgs = false ↔
        ids = [] ∨ ∀ m ∈ msgs, ids.contains m.id = true → m.delivered = true) := by
  refine ⟨?_, markMessagesDelivered_eq_spec ids now1 msgs, ?_, ?_⟩
  · rw [markMessagesDelivered_map ids now1, markMessagesDelivered_map ids now2,
      List.map_map]
    apply List.map_congr_left
    intro m _
    exact markOne_idem ids now1 now2 m
  · intro hw
    unfold markMessagesDeliveredWrites at hw
    unfold markMessagesDelivered
    by_cases hids : ids.isEmpty = true
    · rw [if_pos hids]
    · rw [if_neg hids]
      have hni : (!ids.isEmpty) = true := by
        cases he : ids.isEmpty with
        | true => exact absurd he hids
        | false => rfl
      have hany : msgs.any (fun m => ids.contains m.id && !m.delivered) = false := by
        cases hany : msgs.any (fun m => ids.contains m.id && !m.delivered) with
        | false => rfl
        | true =>
          rw [hni, hany] at hw
          exact absurd hw (by simp)
      rw [hany]
      simp
  · constructor
    · intro hw
      cases hids : ids.isEmpty with
      | true => exact Or.inl (List.isEmpty_iff.mp hids)
      | false =>
        refine Or.inr fun m hm hc => ?_
        cases hd : m.delivered with
        | true => rfl
        | false =>
          exfalso
          have hany : msgs.any (fun m => ids.contains m.id && !m.delivered) = true :=
            List.any_eq_true.mpr ⟨m, hm, by rw [hc, hd]; rfl⟩
          unfold markMessagesDeliveredWrites at hw
          rw [hids, hany] at hw
          exact absurd hw (by simp)
    · intro hor
      unfold markMessagesDeliveredWrites
      rcases hor with h0 | hall
      · subst h0
        rfl
      · have hany : msgs.any (fun m => ids.contains m.id && !m.delivered) = false := by
          cases hany : msgs.any (fun m => ids.contains m.id && !m.delivered) with
          | false => rfl
          | true =>
            exfalso
            obtain ⟨m, hm, hmc⟩ := List.any_eq_true.mp hany
            have hc : ids.contains m.id = true := (Bool.and_eq_true _ _ |>.mp hmc).1
            have hnd : (!m.delivered) = true := (Bool.and_eq_true _ _ |>.mp hmc).2
            rw [hall m hm hc] at hnd
            exact absurd hnd (by simp)
        rw [hany, Bool.and_false]

/-- Witness for C5: the write-guard implication at a concrete log. -/
theorem mark_delivered_idempotent_C5_witness :
    markMessagesDeliveredWrites ["m-b"] [exMsgB] = false ∧
      markMessagesDelivered ["m-b"] 40 [exMsgB] = [exMsgB] :=
  ⟨by decide, (mark_delivered_idempotent_C5 ["m-b"] 40 41 [exMsgB]).2.2.1
    (by decide)⟩

/-! ### Session directory (`getSessionsForUser`, `upsertSession`) -/

/-- Function `getSessionsForUser(userId)`: filter by owner, then sort by `updatedAt`
descending. The source's `Array.prototype.sort` with comparator
`(a, b) => b.updatedAt - a.updatedAt` is a stable sort (Node ≥ 11), modelled by
a stable merge sort with `le a b := b.updatedAt ≤ a.updatedAt`. -/
def getSessionsForUser (userId : String) (sessions : List SessionItem) :
    List SessionItem :=
  (sessions.filter (fun s => s.userId == userId)).mergeSort
    (fun a b => b.updatedAt ≤ a.updatedAt)

/-! ### `session_open` handler -/

/-- The query performed by the `session_open` handler: filter the log by owner
and session, then sort ascending by `timestamp` (stable `Array.prototype.sort`
with comparator `(a, b) => a.timestamp - b.timestamp`). -/
def sessionOpenMessages (userId sessionId : String) (msgs : List Message) :
    List Message :=
  (msgs.filter (fun m => m.toUser == userId && m.sessionId == sessionId)).mergeSort
    (fun a b => decide (a.timestamp ≤ b.timestamp))

/-- The `session_open` handler: silently dropped when the connection has no
registered user or the session id is empty; otherwise emits
`session_messages {sessionId, messages}`. -/
def sessionOpenHandler (connUser : Option String) (sessionId : String)
    (msgs : List Message) : Option (String × List Message) :=
  match connUser with
  | none => none
  | some userId =>
      if userId == "" || sessionId == "" then none
      else some (sessionId, sessionOpenMessages userId sessionId msgs)

/-- C4: opening a session replays exactly the messages whose `to` matches the
registered user and whose `sessionId` matches the request, ascending by
`timestamp`; membership depends neither on presence history (which the handler
never reads) nor on the `delivered` flag. -/
theorem session_open_replay_C4 (userId sessionId : String) (msgs : List Message)
    (hu : userId ≠ "") (hs : sessionId ≠ "") :
    ∃ out, sessionOpenHandler (some userId) sessionId msgs =
        some (sessionId, out) ∧
      out.Perm (msgs.filter
        (fun m => m.toUser == userId && m.sessionId == sessionId)) ∧
      out.Pairwise (fun a b => a.timestamp ≤ b.timestamp) ∧
      ∀ m, m ∈ out ↔ m ∈ msgs ∧ m.toUser = userId ∧ m.sessionId = sessionId := by
  have hbu : (userId == "") = false := by
    cases hb : userId == "" with
    | false => rfl
    | true => exact absurd (by simpa using hb) hu
  have hbs : (sessionId == "") = false := by
    cases hb : sessionId == "" with
    | false => rfl
    | true => exact absurd (by simpa using hb) hs
  refine ⟨sessionOpenMessages userId sessionId msgs, ?_, ?_, ?_, ?_⟩
  · simp [sessionOpenHandler, hbu, hbs]
  · exact List.mergeSort_perm _ _
  · have hp := @List.sorted_mergeSort Message
      (fun a b : Message => decide (a.timestamp ≤ b.timestamp))
      (fun a b c hab hbc => by
        simp only [decide_eq_true_eq] at hab hbc ⊢
        omega)
      (fun a b => by
        simp only [decide_eq_true_eq]
        by_cases h : a.timestamp ≤ b.timestamp
        · simp [h]
        · simp [h, Nat.le_of_not_le h])
      (msgs.filter (fun m => m.toUser == userId && m.sessionId == sessionId))
    exact hp.imp (fun h => by simpa using h)
  · intro m
    unfold sessionOpenMessages
    rw [List.mem_mergeSort, List.mem_filter]
    simp

/-- Witness for C4 at a concrete log. -/
theorem session_open_replay_C4_witness :
    ∃ out, sessionOpenHandler (some "alice") "s1" [exMsgB, exMsgA] =
        some ("s1", out) ∧
      out.Perm ([exMsgB, exMsgA].filter
        (fun m => m.toUser == "alice" && m.sessionId == "s1")) ∧
      out.Pairwise (fun a b => a.timestamp ≤ b.timestamp) ∧
      ∀ m, m ∈ out ↔ m ∈ [exMsgB, exMsgA] ∧ m.toUser = "alice" ∧
        m.sessionId = "s1" :=
  session_open_replay_C4 "alice" "s1" [exMsgB, exMsgA] (by decide) (by decide)

/-! ### `register` handler and the presence map -/

/-- JS `Map.set` on the `onlineUsers` map (keys are unique): replace the value
at the first matching key in place, else append. -/
def mapSet (k v : String) : List (String × String) → List (String × String)
  | [] => [(k, v)]
  | p :: rest => if p.1 == k then (k, v) :: rest else p :: mapSet k v rest

/-- JS `Map.get`. -/
def mapGet (k : String) : List (String × String) → Option String
  | [] => none
  | p :: rest => if p.1 == k then some p.2 else mapGet k rest

lemma mapGet_mapSet (k v : String) (m : List (String × String)) :
    mapGet k (mapSet k v m) = some v := by
  induction m with
  | nil => simp [mapSet, mapGet]
  | cons p rest ih =>
    by_cases hp : (p.1 == k) = true
    · simp [mapSet, mapGet, hp]
    · simp only [mapSet, mapGet, hp]
      simpa [mapGet, hp] using ih

/-- The `register` handler: drop on empty `userId`, otherwise set
`socket.data.userId` and the presence entry unconditionally. Returns the
connection's identity and the presence map after the event. -/
def registerHandler (userId socketId : String) (connUser : Option String)
    (onlineUsers : List (String × String)) :
    Option String × List (String × String) :=
  if userId == "" then (connUser, onlineUsers)
  else (some userId, mapSet userId socketId onlineUsers)

/-! ### `session_create` handler -/

/-- Function `upsertSession(item)`: `findIndex` by `id` then in-place replacement, else
push — i.e. replace the first entry with the same `id`, else append. -/
def upsertSession (item : SessionItem) : List SessionItem → List SessionItem
  | [] => [item]
  | s :: rest =>
      if s.id == item.id then item :: rest else s :: upsertSession item rest

lemma mem_upsertSession (item : SessionItem) (sessions : List SessionItem) :
    item ∈ upsertSession item sessions := by
  induction sessions with
  | nil => simp [upsertSession]
  | cons s rest ih =>
    by_cases hs : (s.id == item.id) = true
    · simp [upsertSession, hs]
    · simp only [upsertSession, hs, if_false]
      exact List.mem_cons_of_mem s ih

/-- The title chosen by `session_create`:
`title && title.trim() ? title : existing?.title || "新会话"`. -/
def sessionCreateTitle (title : Option String) (existing : Option SessionItem) :
    String :=
  let fallback :=
    match existing with
    | some ex => if ex.title == "" then "新会话" else ex.title
    | none => "新会话"
  match title with
  | some t => if !(t == "") && !(t.trim == "") then t else fallback
  | none => fallback

/-- The `session_create` handler. `now` is the handler's single `Date.now()`.
Returns the directory after the upsert and the upserted item (`none` when the
intent is dropped by the guard). -/
def sessionCreateHandler (connUser : Option String) (sessionId : String)
    (title : Option String) (now : Nat) (sessions : List SessionItem) :
    List SessionItem × Option SessionItem :=
  match connUser with
  | none => (sessions, none)
  | some userId =>
      if userId == "" || sessionId == "" then (sessions, none)
      else
        let existing := (getSessionsForUser userId sessions).find?
          (fun s => s.id == sessionId)
        let item : SessionItem :=
          { id := sessionId, userId := userId,
            title := sessionCreateTitle title existing,
            createdAt := match existing with
              | some ex => ex.createdAt
              | none => now,
            updatedAt := now }
        (upsertSession item sessions, some item)

/-! ### `ai_send` handler -/

/-- The externally visible steps the `ai_send` handler performs, in program
order: the synchronous persist of the user's message, the un-awaited call into
`startAIStream`, and the conditional session bump. -/
inductive GatewayAction where
  | persistMessage (m : Message)
  | invokeOrchestrator (userId sessionId text : String)
  | bumpSession (item : SessionItem)
deriving DecidableEq, Repr

/-- The `ai_send` handler. `uuid` is the `crypto.randomUUID()` for the user's
message; `t1`/`t2` are the two `Date.now()` calls stamping
`timestamp`/`deliveredAt`; `t3` the `Date.now()` inside the bump. Returns the
log, the directory, and the ordered action trace. The source field `from` is a
reserved word in Lean and appears here as `fromUser`. -/
def aiSendHandler (connUser : Option String) (sessionId text : String)
    (uuid : String) (t1 t2 t3 : Nat)
    (msgs : List Message) (sessions : List SessionItem) :
    List Message × List SessionItem × List GatewayAction :=
  match connUser with
  | none => (msgs, sessions, [])
  | some fromUser =>
      if fromUser == "" || text == "" || sessionId == "" then (msgs, sessions, [])
      else
        let userMsg : Message :=
          { id := uuid, toUser := fromUser, sessionId := sessionId,
            timestamp := t1, delivered := true, deliveredAt := some t2,
            role := Role.user, message := MessageBody.text text }
        let msgs1 := addMessage userMsg msgs
        match (getSessionsForUser fromUser sessions).find?
            (fun s => s.id == sessionId) with
        | some tgt =>
            (msgs1, upsertSession { tgt with updatedAt := t3 } sessions,
              [GatewayAction.persistMessage userMsg,
               GatewayAction.invokeOrchestrator fromUser sessionId text,
               GatewayAction.bumpSession { tgt with updatedAt := t3 }])
        | none =>
            (msgs1, sessions,
              [GatewayAction.persistMessage userMsg,
               GatewayAction.invokeOrchestrator fromUser sessionId text])

/-- Sample directory entry used to instantiate theorems on concrete inputs. -/
def exSess : SessionItem :=
  { id := "s1", userId := "alice", title := "t", createdAt := 5, updatedAt := 7 }

/-- C9 fails on the code: `register` overwrites the connection identity, so a
second register with a different user id does change it. Concretely, a
connection that registered as `alice` and then as `bob` is associated with
`bob`, not `alice`. -/
theorem register_no_reregistration_C9_cex :
    (registerHandler "bob" "sock1"
        (registerHandler "alice" "sock1" none []).1
        (registerHandler "alice" "sock1" none []).2).1 = some "bob" ∧
      ("bob" : String) ≠ "alice" := by
  constructor
  · rfl
  · decide

/-- C9 (amended): every `register` intent with a non-empty `userId`
unconditionally overwrites the connection's identity and the presence entry —
last registration wins, whatever identity was declared before; an empty
`userId` is dropped. -/
theorem register_overwrites_C9 (userId socketId : String)
    (connUser : Option String) (onlineUsers : List (String × String))
    (h : userId ≠ "") :
    (registerHandler userId socketId connUser onlineUsers).1 = some userId ∧
      mapGet userId (registerHandler userId socketId connUser onlineUsers).2 =
        some socketId := by
  have hb : (userId == "") = false := by
    cases hx : userId == "" with
    | false => rfl
    | true => exact absurd (by simpa using hx) h
  unfold registerHandler
  rw [hb]
  exact ⟨rfl, mapGet_mapSet userId socketId onlineUsers⟩

/-- Witness for the amended C9 at a concrete re-registration. -/
theorem register_overwrites_C9_witness :
    (registerHandler "bob" "sock2" (some "alice") [("alice", "sock1")]).1 =
        some "bob" ∧
      mapGet "bob"
        (registerHandler "bob" "sock2" (some "alice") [("alice", "sock1")]).2 =
        some "sock2" :=
  register_overwrites_C9 "bob" "sock2" (some "alice") [("alice", "sock1")]
    (by decide)

/-- C10: `session_create` on an id that already exists for the connection's
user keeps the original `createdAt` (only the title and `updatedAt` may
change), and stamps `createdAt := now` only when the id is unseen for that
user; the upserted item lands in the directory. -/
theorem session_create_createdAt_C10 (userId sessionId : String)
    (title : Option String) (now : Nat) (sessions : List SessionItem)
    (hu : userId ≠ "") (hs : sessionId ≠ "") :
    ∃ item : SessionItem,
      (sessionCreateHandler (some userId) sessionId title now sessions).2 =
          some item ∧
        item.id = sessionId ∧ item.userId = userId ∧ item.updatedAt = now ∧
        (∀ ex, (getSessionsForUser userId sessions).find?
            (fun s => s.id == sessionId) = some ex →
          item.createdAt = ex.createdAt) ∧
        ((getSessionsForUser userId sessions).find?
            (fun s => s.id == sessionId) = none →
          item.createdAt = now) ∧
        item ∈ (sessionCreateHandler (some userId) sessionId title now
          sessions).1 := by
  have hbu : (userId == "") = false := by
    cases hx : userId == "" with
    | false => rfl
    | true => exact absurd (by simpa using hx) hu
  have hbs : (sessionId == "") = false := by
    cases hx : sessionId == "" with
    | false => rfl
    | true => exact absurd (by simpa using hx) hs
  unfold sessionCreateHandler
  simp only [hbu, hbs, Bool.or_self, Bool.false_eq_true, if_false]
  cases hex : (getSessionsForUser userId sessions).find?
      (fun s => s.id == sessionId) with
  | some ex =>
    refine ⟨_, rfl, rfl, rfl, rfl, ?_, ?_, mem_upsertSession _ _⟩
    · intro ex' hex'
      cases hex'
      rfl
    · intro hnone
      cases hnone
  | none =>
    refine ⟨_, rfl, rfl, rfl, rfl, ?_, ?_, mem_upsertSession _ _⟩
    · intro ex' hex'
      cases hex'
    · intro _
      rfl

/-- Witness for C10 at a concrete directory. -/
theorem session_create_createdAt_C10_witness :
    ∃ item : SessionItem,
      (sessionCreateHandler (some "alice") "s1" none 9 [exSess]).2 = some item ∧
        item.id = "s1" ∧ item.userId = "alice" ∧ item.updatedAt = 9 ∧
        (∀ ex, (getSessionsForUser "alice" [exSess]).find?
            (fun s => s.id == "s1") = some ex →
          item.createdAt = ex.createdAt) ∧
        ((getSessionsForUser "alice" [exSess]).find?
            (fun s => s.id == "s1") = none →
          item.createdAt = 9) ∧
        item ∈ (sessionCreateHandler (some "alice") "s1" none 9 [exSess]).1 :=
  session_create_createdAt_C10 "alice" "s1" none 9 [exSess] (by decide)
    (by decide)

lemma getSessionsForUser_singleton_self :
    getSessionsForUser "alice" [exSess] = [exSess] := by
  unfold getSessionsForUser
  have hf : [exSess].filter (fun s => s.userId == "alice") = [exSess] := by
    simp [exSess]
  rw [hf]
  exact List.mergeSort_singleton exSess

/-- C7 fails on the code: the handler calls `startAIStream` *before* bumping
the session's `updatedAt`, so the action trace is persist–invoke–bump, never
the claimed persist–bump–invoke. Shown on a registered user sending into an
existing session. -/
theorem ai_send_order_C7_cex :
    ¬ ∃ (m : Message) (it : SessionItem),
      (aiSendHandler (some "alice") "s1" "hi" "u-1" 1 2 3 [] [exSess]).2.2 =
        [GatewayAction.persistMessage m, GatewayAction.bumpSession it,
         GatewayAction.invokeOrchestrator "alice" "s1" "hi"] := by
  have htr : (aiSendHandler (some "alice") "s1" "hi" "u-1" 1 2 3 []
      [exSess]).2.2 =
      [GatewayAction.persistMessage
        { id := "u-1", toUser := "alice", sessionId := "s1", timestamp := 1,
          delivered := true, deliveredAt := some 2, role := Role.user,
          message := MessageBody.text "hi" },
       GatewayAction.invokeOrchestrator "alice" "s1" "hi",
       GatewayAction.bumpSession { exSess with updatedAt := 3 }] := by
    have hfind : List.find? (fun s => s.id == "s1")
        (getSessionsForUser "alice" [exSess]) = some exSess := by
      rw [getSessionsForUser_singleton_self]
      simp [exSess]
    simp [aiSendHandler, hfind]
  rintro ⟨m, it, heq⟩
  rw [htr] at heq
  simp at heq

/-- C7 (amended): a valid `ai_send` first persists the user's message
synchronously (role=user, delivered=true, deliveredAt stamped), then invokes
the Orchestrator without waiting for it, and only after that bumps the
session's `updatedAt` — and this bump occurs only when the session already
exists for that user (no bump on an unseen session id). -/
theorem ai_send_steps_C7 (fromUser sessionId text uuid : String)
    (t1 t2 t3 : Nat) (msgs : List Message) (sessions : List SessionItem)
    (hu : fromUser ≠ "") (ht : text ≠ "") (hs : sessionId ≠ "") :
    ∃ userMsg : Message,
      userMsg.role = Role.user ∧ userMsg.delivered = true ∧
        userMsg.deliveredAt = some t2 ∧ userMsg.toUser = fromUser ∧
        userMsg.sessionId = sessionId ∧ userMsg.timestamp = t1 ∧
        userMsg.message = MessageBody.text text ∧
        (aiSendHandler (some fromUser) sessionId text uuid t1 t2 t3 msgs
          sessions).1 = addMessage userMsg msgs ∧
        (aiSendHandler (some fromUser) sessionId text uuid t1 t2 t3 msgs
          sessions).2.2 =
          GatewayAction.persistMessage userMsg ::
            GatewayAction.invokeOrchestrator fromUser sessionId text ::
            (match (getSessionsForUser fromUser sessions).find?
                (fun s => s.id == sessionId) with
             | some tgt => [GatewayAction.bumpSession { tgt with updatedAt := t3 }]
             | none => []) ∧
        (aiSendHandler (some fromUser) sessionId text uuid t1 t2 t3 msgs
          sessions).2.1 =
          (match (getSessionsForUser fromUser sessions).find?
              (fun s => s.id == sessionId) with
           | some tgt => upsertSession { tgt with updatedAt := t3 } sessions
           | none => sessions) := by
  have hbu : (fromUser == "") = false := by
    cases hx : fromUser == "" with
    | false => rfl
    | true => exact absurd (by simpa using hx) hu
  have hbt : (text == "") = false := by
    cases hx : text == "" with
    | false => rfl
    | true => exact absurd (by simpa using hx) ht
  have hbs : (sessionId == "") = false := by
    cases hx : sessionId == "" with
    | false => rfl
    | true => exact absurd (by simpa using hx) hs
  unfold aiSendHandler
  simp only [hbu, hbt, hbs, Bool.or_self, Bool.false_eq_true, if_false]
  cases hex : (getSessionsForUser fromUser sessions).find?
      (fun s => s.id == sessionId) with
  | some tgt => exact ⟨_, rfl, rfl, rfl, rfl, rfl, rfl, rfl, rfl, rfl, rfl⟩
  | none => exact ⟨_, rfl, rfl, rfl, rfl, rfl, rfl, rfl, rfl, rfl, rfl⟩

/-- Witness for the amended C7 at a concrete send into an existing session. -/
theorem ai_send_steps_C7_witness :
    ∃ userMsg : Message,
      userMsg.role = Role.user ∧ userMsg.delivered = true ∧
        userMsg.deliveredAt = some 2 ∧ userMsg.toUser = "alice" ∧
        userMsg.sessionId = "s1" ∧ userMsg.timestamp = 1 ∧
        userMsg.message = MessageBody.text "hi" ∧
        (aiSendHandler (some "alice") "s1" "hi" "u-1" 1 2 3 [] [exSess]).1 =
          addMessage userMsg [] ∧
        (aiSendHandler (some "alice") "s1" "hi" "u-1" 1 2 3 [] [exSess]).2.2 =
          GatewayAction.persistMessage userMsg ::
            GatewayAction.invokeOrchestrator "alice" "s1" "hi" ::
            (match (getSessionsForUser "alice" [exSess]).find?
                (fun s => s.id == "s1") with
             | some tgt => [GatewayAction.bumpSession { tgt with updatedAt := 3 }]
             | none => []) ∧
        (aiSendHandler (some "alice") "s1" "hi" "u-1" 1 2 3 [] [exSess]).2.1 =
          (match (getSessionsForUser "alice" [exSess]).find?
              (fun s => s.id == "s1") with
           | some tgt => upsertSession { tgt with updatedAt := 3 } [exSess]
           | none => [exSess]) :=
  ai_send_steps_C7 "alice" "s1" "hi" "u-1" 1 2 3 [] [exSess] (by decide)
    (by decide) (by decide)

/-- C8 fails on the code: sending into a session id unseen for the user does
*not* create a SessionItem — the bump is guarded by `if (target)` and is
skipped, so `listForUser` still has no item with that id after the send. -/
theorem ai_send_no_implicit_session_C8_cex :
    (aiSendHandler (some "alice") "s2" "hi" "u-1" 1 2 3 [] []).2.1 = [] ∧
      ¬ ∃ it, it ∈ getSessionsForUser "alice"
          (aiSendHandler (some "alice") "s2" "hi" "u-1" 1 2 3 [] []).2.1 ∧
        it.id = "s2" := by
  have hres : (aiSendHandler (some "alice") "s2" "hi" "u-1" 1 2 3 [] []).2.1 =
      [] := by
    have hg : getSessionsForUser "alice" ([] : List SessionItem) = [] := by
      unfold getSessionsForUser
      rw [List.filter_nil]
      exact List.mergeSort_nil
    simp [aiSendHandler, hg]
  refine ⟨hres, ?_⟩
  rintro ⟨it, hmem, _⟩
  rw [hres] at hmem
  unfold getSessionsForUser at hmem
  rw [List.filter_nil, List.mergeSort_nil] at hmem
  exact List.not_mem_nil it hmem

/-- C8 (amended): an `ai_send` against a session id unseen for that user
creates nothing — the session bump is skipped, the Session Directory is left
exactly as it was, and `listForUser` still contains no item with that id;
sessions are created only by the explicit `session_create` intent. -/
theorem ai_send_unseen_session_C8 (fromUser sessionId text uuid : String)
    (t1 t2 t3 : Nat) (msgs : List Message) (sessions : List SessionItem)
    (h : ∀ s ∈ sessions, s.userId = fromUser → s.id ≠ sessionId) :
    (aiSendHandler (some fromUser) sessionId text uuid t1 t2 t3 msgs
        sessions).2.1 = sessions ∧
      ∀ it ∈ getSessionsForUser fromUser
          (aiSendHandler (some fromUser) sessionId text uuid t1 t2 t3 msgs
            sessions).2.1,
        it.id ≠ sessionId := by
  have hmemg : ∀ it ∈ getSessionsForUser fromUser sessions, it.id ≠ sessionId := by
    intro it hit
    unfold getSessionsForUser at hit
    rw [List.mem_mergeSort] at hit
    rw [List.mem_filter] at hit
    exact h it hit.1 (by simpa using hit.2)
  have hfind : (getSessionsForUser fromUser sessions).find?
      (fun s => s.id == sessionId) = none := by
    rw [List.find?_eq_none]
    intro it hit
    simpa using hmemg it hit
  have hres : (aiSendHandler (some fromUser) sessionId text uuid t1 t2 t3 msgs
      sessions).2.1 = sessions := by
    unfold aiSendHandler
    cases hg : (fromUser == "" || text == "" || sessionId == "") with
    | true => simp [hg]
    | false =>
      simp only [hg, Bool.false_eq_true, if_false]
      rw [hfind]
  refine ⟨hres, ?_⟩
  rw [hres]
  exact hmemg

/-- Witness for the amended C8: a send by `bob`, for whom no session exists. -/
theorem ai_send_unseen_session_C8_witness :
    (aiSendHandler (some "bob") "s2" "hi" "u-1" 1 2 3 [] [exSess]).2.1 =
        [exSess] ∧
      ∀ it ∈ getSessionsForUser "bob"
          (aiSendHandler (some "bob") "s2" "hi" "u-1" 1 2 3 [] [exSess]).2.1,
        it.id ≠ "s2" :=
  ai_send_unseen_session_C8 "bob" "s2" "hi" "u-1" 1 2 3 [] [exSess]
    (by decide)

/-! ### Streaming orchestrator (`startAIStream`) -/

/-- One typed event of the generation engine's `fullStream` feed.
`textDelta` carries `event.text`, which the code defensively reads as
`event.text ?? ""`. -/
inductive FeedEvent where
  | textDelta (text : Option String)
  | toolCall (toolName : String)
  | toolResult (toolName : String)
  | finish
deriving DecidableEq, Repr

/-- Outbound notifications the orchestrator can emit (from
`ServerToClientEvents`; the target socket id is the user's current connection
and is not recorded in the payload). -/
inductive Notification where
  | ai_started (id sessionId : String)
  | ai_chunk (id sessionId delta : String)
  | ai_complete (id sessionId text : String)
  | ai_tool_call (sessionId name : String)
  | ai_tool_result (sessionId name : String)
deriving DecidableEq, Repr

/-- Whether a notification is the terminal `ai_complete`. -/
def Notification.isComplete : Notification → Bool
  | .ai_complete _ _ _ => true
  | _ => false

/-- Sources of nondeterminism of one run: successive `crypto.randomUUID()`
results and successive `Date.now()` readings. -/
structure Supplies where
  uuid : Nat → String
  now : Nat → Nat

/-- How one orchestrator run ends: the final aggregate resolves to
`finalText` with the user's presence at finish time, or an error is thrown
while consuming the feed (after the recorded events), or while awaiting the
final aggregate. -/
inductive RunOutcome where
  | ok (finalText : String) (presenceAtFinish : Option String)
  | errorDuringFeed
  | errorAtFinalText

/-- One orchestrator invocation: the `onlineUsers` lookup result at each
program point is recorded alongside the event it guards. -/
structure RunInput where
  userId : String
  sessionId : String
  presenceAtStart : Option String
  events : List (FeedEvent × Option String)
  outcome : RunOutcome

/-- The mutable state of one `startAIStream` run: the message log, the
notifications emitted so far, the next `crypto.randomUUID()`/`Date.now()`
indices, and the local `textSoFar`/`done` variables. -/
structure OrchSt where
  store : List Message
  emitted : List Notification
  uuidK : Nat
  nowK : Nat
  textSoFar : String
  done : Bool

/-- The `tool_use` record persisted for a `tool-call` feed event, with the
uuid/time counters at which it is created. -/
def toolUseMsg (sup : Supplies) (userId sessionId name : String)
    (uuidK nowK : Nat) : Message :=
  { id := sup.uuid uuidK, toUser := userId, sessionId := sessionId,
    timestamp := sup.now nowK, delivered := false, deliveredAt := none,
    role := Role.system, message := MessageBody.tool_use name }

/-- The `tool_result` record persisted for a `tool-result` feed event. -/
def toolResultMsg (sup : Supplies) (userId sessionId name : String)
    (uuidK nowK : Nat) : Message :=
  { id := sup.uuid uuidK, toUser := userId, sessionId := sessionId,
    timestamp := sup.now nowK, delivered := false, deliveredAt := none,
    role := Role.system, message := MessageBody.tool_result name }

lemma toolUseMsg_id (sup : Supplies) (userId sessionId name : String)
    (uuidK nowK : Nat) :
    (toolUseMsg sup userId sessionId name uuidK nowK).id = sup.uuid uuidK := rfl

lemma toolResultMsg_id (sup : Supplies) (userId sessionId name : String)
    (uuidK nowK : Nat) :
    (toolResultMsg sup userId sessionId name uuidK nowK).id = sup.uuid uuidK := rfl

/-- One iteration of the `for await` loop over the feed, given the presence
lookup result at that iteration. -/
def stepEvent (sup : Supplies) (userId sessionId : String)
    (messageId : String) (st : OrchSt) (ev : FeedEvent × Option String) :
    OrchSt :=
  match ev.1 with
  | .textDelta t =>
      let delta := t.getD ""
      if !st.done && !(delta == "") then
        { st with
          textSoFar := st.textSoFar ++ delta,
          emitted := match ev.2 with
            | some _ => st.emitted ++ [Notification.ai_chunk messageId sessionId delta]
            | none => st.emitted }
      else st
  | .toolCall name =>
      let toolMsg : Message := toolUseMsg sup userId sessionId name st.uuidK st.nowK
      let store1 := addMessage toolMsg st.store
      match ev.2 with
      | some _ =>
          { st with
            store := markMessagesDelivered [toolMsg.id] (sup.now (st.nowK + 1)) store1,
            emitted := st.emitted ++ [Notification.ai_tool_call sessionId name],
            uuidK := st.uuidK + 1, nowK := st.nowK + 2 }
      | none =>
          { st with store := store1, uuidK := st.uuidK + 1, nowK := st.nowK + 1 }
  | .toolResult name =>
      let toolResMsg : Message := toolResultMsg sup userId sessionId name st.uuidK st.nowK
      let store1 := addMessage toolResMsg st.store
      match ev.2 with
      | some _ =>
          { st with
            store := markMessagesDelivered [toolResMsg.id] (sup.now (st.nowK + 1)) store1,
            emitted := st.emitted ++ [Notification.ai_tool_result sessionId name],
            uuidK := st.uuidK + 1, nowK := st.nowK + 2 }
      | none =>
          { st with store := store1, uuidK := st.uuidK + 1, nowK := st.nowK + 1 }
  | .finish => st

/-- The final `ai`-role artifact persisted under the artifact id (`uuid 0`). -/
def finalAiMsg (sup : Supplies) (userId sessionId text1 : String)
    (nowK : Nat) : Message :=
  { id := sup.uuid 0, toUser := userId, sessionId := sessionId,
    timestamp := sup.now nowK, delivered := false, deliveredAt := none,
    role := Role.ai, message := MessageBody.text text1 }

/-- What a finished run leaves behind: the log and the emitted notifications. -/
structure OrchResult where
  store : List Message
  emitted : List Notification

/-- The notifications emitted before the loop: `ai_started` iff the user had a
presence entry at start. -/
def initialEmitted (sup : Supplies) (sessionId : String)
    (presStart : Option String) : List Notification :=
  match presStart with
  | some _ => [Notification.ai_started (sup.uuid 0) sessionId]
  | none => []

/-- The run's state when the feed is exhausted (or when the error that aborts
feed consumption is thrown after the recorded events). -/
def loopSt (sup : Supplies) (userId sessionId : String)
    (presStart : Option String) (events : List (FeedEvent × Option String))
    (store0 : List Message) : OrchSt :=
  events.foldl (stepEvent sup userId sessionId (sup.uuid 0))
    { store := store0, emitted := initialEmitted sup sessionId presStart,
      uuidK := 1, nowK := 0, textSoFar := "", done := false }

/-- Function `startAIStream(userId, sessionId, input)`. The artifact id `messageId` is
the first `randomUUID()`. `ai_started` is emitted only when the user has a
presence entry at start. The feed is consumed event by event; then, on the
`ok` outcome, `textSoFar = finalText || textSoFar` is resolved, exactly one
`ai`-role record is persisted under `messageId`, and, when the user is present
at finish time, `ai_complete` is emitted and that record is marked delivered.
On either error outcome the `catch` only logs and sets `done`. -/
def startAIStream (sup : Supplies) (inp : RunInput) (store0 : List Message) :
    OrchResult :=
  let messageId := sup.uuid 0
  let stL := loopSt sup inp.userId inp.sessionId inp.presenceAtStart
    inp.events store0
  match inp.outcome with
  | .errorDuringFeed => { store := stL.store, emitted := stL.emitted }
  | .errorAtFinalText => { store := stL.store, emitted := stL.emitted }
  | .ok finalText presFin =>
      let text1 := if finalText == "" then stL.textSoFar else finalText
      let finalMsg : Message := finalAiMsg sup inp.userId inp.sessionId text1 stL.nowK
      let store1 := addMessage finalMsg stL.store
      match presFin with
      | some _ =>
          { store := markMessagesDelivered [messageId] (sup.now (stL.nowK + 1)) store1,
            emitted := stL.emitted ++
              [Notification.ai_complete messageId inp.sessionId text1] }
      | none => { store := store1, emitted := stL.emitted }

/-- The concatenation of the feed's text deltas (`event.text ?? ""`), i.e. the
value `textSoFar` accumulates across the loop. -/
def deltasConcat : List (FeedEvent × Option String) → String
  | [] => ""
  | (FeedEvent.textDelta t, _) :: rest => t.getD "" ++ deltasConcat rest
  | (FeedEvent.toolCall _, _) :: rest => deltasConcat rest
  | (FeedEvent.toolResult _, _) :: rest => deltasConcat rest
  | (FeedEvent.finish, _) :: rest => deltasConcat rest

/-- Whether a message body is a tool-trace record. -/
def MessageBody.isToolRecord : MessageBody → Bool
  | .tool_use _ => true
  | .tool_result _ => true
  | .text _ => false

/-- The text contributed to `textSoFar` by one feed event. -/
def deltaOf : FeedEvent × Option String → String
  | (FeedEvent.textDelta t, _) => t.getD ""
  | (FeedEvent.toolCall _, _) => ""
  | (FeedEvent.toolResult _, _) => ""
  | (FeedEvent.finish, _) => ""

lemma deltasConcat_cons (e : FeedEvent × Option String)
    (rest : List (FeedEvent × Option String)) :
    deltasConcat (e :: rest) = deltaOf e ++ deltasConcat rest := by
  obtain ⟨ev, pres⟩ := e
  cases ev <;> simp [deltasConcat, deltaOf]

/-- Invariant of `startAIStream`'s feed loop relative to the initial log
`store0`: everything appended so far is a system tool record carrying a uuid
issued strictly before the current counter (and after the artifact id), and no
`ai_complete` has been emitted. -/
def LoopInv (sup : Supplies) (store0 : List Message) (st : OrchSt)
    (d : List Message) : Prop :=
  st.store = store0 ++ d ∧ st.done = false ∧ 1 ≤ st.uuidK ∧
    (∀ m ∈ d, m.role = Role.system ∧ m.message.isToolRecord = true ∧
      ∃ k, 1 ≤ k ∧ k < st.uuidK ∧ m.id = sup.uuid k) ∧
    (∀ n ∈ st.emitted, n.isComplete = false)

lemma stepEvent_inv (sup : Supplies) (userId sessionId messageId : String)
    (store0 : List Message)
    (hfresh : ∀ m ∈ store0, ∀ n, m.id ≠ sup.uuid n)
    (st : OrchSt) (d : List Message) (e : FeedEvent × Option String)
    (hinv : LoopInv sup store0 st d) :
    ∃ d1, LoopInv sup store0 (stepEvent sup userId sessionId messageId st e) d1 ∧
      (stepEvent sup userId sessionId messageId st e).textSoFar =
        st.textSoFar ++ deltaOf e := by
  obtain ⟨hst, hdone, huuid, hd, hem⟩ := hinv
  obtain ⟨ev, pres⟩ := e
  cases ev with
  | textDelta t =>
    by_cases hskip : (!st.done && !(t.getD "" == "")) = true
    · refine ⟨d, ⟨?_, ?_, ?_, ?_, ?_⟩, ?_⟩ <;>
        simp only [stepEvent, hskip, if_true]
      · exact hst
      · exact hdone
      · exact huuid
      · exact hd
      · cases pres with
        | some s =>
          intro n hn
          rcases List.mem_append.mp hn with hn | hn
          · exact hem n hn
          · rcases List.mem_singleton.mp hn with rfl
            rfl
        | none => exact hem
      · rfl
    · refine ⟨d, ⟨?_, ?_, ?_, ?_, ?_⟩, ?_⟩ <;>
        simp only [stepEvent, hskip, if_false]
      · exact hst
      · exact hdone
      · exact huuid
      · exact hd
      · exact hem
      · have hde : t.getD "" = "" := by
          rw [hdone] at hskip
          cases hx : (t.getD "" == "") with
          | true => exact (by simpa using hx)
          | false => exact absurd (by simp [hx]) hskip
        simp [deltaOf, hde]
  | toolCall name =>
    cases pres with
    | none =>
      refine ⟨d ++ [toolUseMsg sup userId sessionId name st.uuidK st.nowK],
        ⟨?_, hdone, ?_, ?_, hem⟩, ?_⟩
      · simp only [stepEvent]
        rw [hst]
        simp [addMessage]
      · simp only [stepEvent]
        omega
      · intro m hm
        simp only [stepEvent]
        rcases List.mem_append.mp hm with hm | hm
        · obtain ⟨hr, hb, k, hk1, hk2, hk3⟩ := hd m hm
          exact ⟨hr, hb, k, hk1, by omega, hk3⟩
        · rcases List.mem_singleton.mp hm with rfl
          exact ⟨rfl, rfl, st.uuidK, huuid, by omega, rfl⟩
      · simp [stepEvent, deltaOf]
    | some sk =>
      have hfr0 : ∀ m ∈ store0,
          (([sup.uuid st.uuidK] : List String).contains m.id) = false := by
        intro m hm
        have hne := hfresh m hm st.uuidK
        simp [List.contains_cons, hne]
      refine ⟨(d ++ [toolUseMsg sup userId sessionId name st.uuidK st.nowK]).map
          (markOne [sup.uuid st.uuidK] (sup.now (st.nowK + 1))),
        ⟨?_, hdone, ?_, ?_, ?_⟩, ?_⟩
      · simp only [stepEvent]
        have hsplit : addMessage (toolUseMsg sup userId sessionId name st.uuidK
            st.nowK) st.store =
            store0 ++ (d ++ [toolUseMsg sup userId sessionId name st.uuidK
              st.nowK]) := by
          rw [hst]
          simp [addMessage]
        rw [hsplit, markMessagesDelivered_append]
        simp only [toolUseMsg_id]
        rw [markMessagesDelivered_of_fresh _ _ _ hfr0, markMessagesDelivered_map]
      · simp only [stepEvent]
        omega
      · intro m hm
        simp only [stepEvent]
        obtain ⟨m0, hm0, rfl⟩ := List.mem_map.mp hm
        rw [markOne_role, markOne_message, markOne_id]
        rcases List.mem_append.mp hm0 with hm0 | hm0
        · obtain ⟨hr, hb, k, hk1, hk2, hk3⟩ := hd m0 hm0
          exact ⟨hr, hb, k, hk1, by omega, hk3⟩
        · rcases List.mem_singleton.mp hm0 with rfl
          exact ⟨rfl, rfl, st.uuidK, huuid, by omega, rfl⟩
      · intro n hn
        simp only [stepEvent] at hn
        rcases List.mem_append.mp hn with hn | hn
        · exact hem n hn
        · rcases List.mem_singleton.mp hn with rfl
          rfl
      · simp [stepEvent, deltaOf]
  | toolResult name =>
    cases pres with
    | none =>
      refine ⟨d ++ [toolResultMsg sup userId sessionId name st.uuidK st.nowK],
        ⟨?_, hdone, ?_, ?_, hem⟩, ?_⟩
      · simp only [stepEvent]
        rw [hst]
        simp [addMessage]
      · simp only [stepEvent]
        omega
      · intro m hm
        simp only [stepEvent]
        rcases List.mem_append.mp hm with hm | hm
        · obtain ⟨hr, hb, k, hk1, hk2, hk3⟩ := hd m hm
          exact ⟨hr, hb, k, hk1, by omega, hk3⟩
        · rcases List.mem_singleton.mp hm with rfl
          exact ⟨rfl, rfl, st.uuidK, huuid, by omega, rfl⟩
      · simp [stepEvent, deltaOf]
    | some sk =>
      have hfr0 : ∀ m ∈ store0,
          (([sup.uuid st.uuidK] : List String).contains m.id) = false := by
        intro m hm
        have hne := hfresh m hm st.uuidK
        simp [List.contains_cons, hne]
      refine ⟨(d ++ [toolResultMsg sup userId sessionId name st.uuidK st.nowK]).map
          (markOne [sup.uuid st.uuidK] (sup.now (st.nowK + 1))),
        ⟨?_, hdone, ?_, ?_, ?_⟩, ?_⟩
      · simp only [stepEvent]
        have hsplit : addMessage (toolResultMsg sup userId sessionId name st.uuidK
            st.nowK) st.store =
            store0 ++ (d ++ [toolResultMsg sup userId sessionId name st.uuidK
              st.nowK]) := by
          rw [hst]
          simp [addMessage]
        rw [hsplit, markMessagesDelivered_append]
        simp only [toolResultMsg_id]
        rw [markMessagesDelivered_of_fresh _ _ _ hfr0, markMessagesDelivered_map]
      · simp only [stepEvent]
        omega
      · intro m hm
        simp only [stepEvent]
        obtain ⟨m0, hm0, rfl⟩ := List.mem_map.mp hm
        rw [markOne_role, markOne_message, markOne_id]
        rcases List.mem_append.mp hm0 with hm0 | hm0
        · obtain ⟨hr, hb, k, hk1, hk2, hk3⟩ := hd m0 hm0
          exact ⟨hr, hb, k, hk1, by omega, hk3⟩
        · rcases List.mem_singleton.mp hm0 with rfl
          exact ⟨rfl, rfl, st.uuidK, huuid, by omega, rfl⟩
      · intro n hn
        simp only [stepEvent] at hn
        rcases List.mem_append.mp hn with hn | hn
        · exact hem n hn
        · rcases List.mem_singleton.mp hn with rfl
          rfl
      · simp [stepEvent, deltaOf]
  | finish =>
    exact ⟨d, ⟨hst, hdone, huuid, hd, hem⟩, by simp [stepEvent, deltaOf]⟩

lemma foldl_stepEvent_inv (sup : Supplies) (userId sessionId messageId : String)
    (store0 : List Message)
    (hfresh : ∀ m ∈ store0, ∀ n, m.id ≠ sup.uuid n) :
    ∀ (evts : List (FeedEvent × Option String)) (st : OrchSt) (d : List Message),
      LoopInv sup store0 st d →
      ∃ d', LoopInv sup store0
          (evts.foldl (stepEvent sup userId sessionId messageId) st) d' ∧
        (evts.foldl (stepEvent sup userId sessionId messageId) st).textSoFar =
          st.textSoFar ++ deltasConcat evts := by
  intro evts
  induction evts with
  | nil =>
    intro st d hinv
    exact ⟨d, hinv, by simp [deltasConcat]⟩
  | cons e evts ih =>
    intro st d hinv
    obtain ⟨d1, hinv1, htext1⟩ :=
      stepEvent_inv sup userId sessionId messageId store0 hfresh st d e hinv
    obtain ⟨d', hinv', htext'⟩ :=
      ih (stepEvent sup userId sessionId messageId st e) d1 hinv1
    refine ⟨d', ?_, ?_⟩
    · simpa [List.foldl_cons] using hinv'
    · rw [List.foldl_cons, htext', htext1, deltasConcat_cons,
        String.append_assoc]

lemma foldl_stepEvent_offline (sup : Supplies)
    (userId sessionId messageId : String) :
    ∀ (evts : List (FeedEvent × Option String)) (st : OrchSt),
      (∀ e ∈ evts, e.2 = none) → st.done = false →
      ∃ d, (evts.foldl (stepEvent sup userId sessionId messageId) st).store =
            st.store ++ d ∧
        (evts.foldl (stepEvent sup userId sessionId messageId) st).emitted =
          st.emitted ∧
        (evts.foldl (stepEvent sup userId sessionId messageId) st).done = false ∧
        ∀ m ∈ d, m.delivered = false ∧ m.role = Role.system ∧
          m.message.isToolRecord = true := by
  intro evts
  induction evts with
  | nil =>
    intro st _ hdone
    exact ⟨[], by simp, rfl, hdone, by intro m hm; cases hm⟩
  | cons e evts ih =>
    intro st hev hdone
    have hpres : e.2 = none := hev e (List.mem_cons_self e evts)
    have hev' : ∀ e' ∈ evts, e'.2 = none :=
      fun e' he' => hev e' (List.mem_cons_of_mem e he')
    obtain ⟨ev, pres⟩ := e
    cases pres with
    | some sk => cases hpres
    | none =>
      rw [List.foldl_cons]
      cases ev with
      | textDelta t =>
        by_cases hskip : (!st.done && !(t.getD "" == "")) = true
        · have hstep : stepEvent sup userId sessionId messageId st
              (FeedEvent.textDelta t, none) =
              { st with textSoFar := st.textSoFar ++ t.getD "" } := by
            simp only [stepEvent, hskip, if_true]
          rw [hstep]
          exact ih _ hev' hdone
        · have hstep : stepEvent sup userId sessionId messageId st
              (FeedEvent.textDelta t, none) = st := by
            simp [stepEvent, hskip]
          rw [hstep]
          exact ih _ hev' hdone
      | toolCall name =>
        have hstep : stepEvent sup userId sessionId messageId st
            (FeedEvent.toolCall name, none) =
            { st with
              store := st.store ++
                [toolUseMsg sup userId sessionId name st.uuidK st.nowK],
              uuidK := st.uuidK + 1, nowK := st.nowK + 1 } := by
          simp only [stepEvent, addMessage]
        rw [hstep]
        obtain ⟨d1, hs1, he1, hd1, hp1⟩ := ih
          ({ st with
              store := st.store ++
                [toolUseMsg sup userId sessionId name st.uuidK st.nowK],
              uuidK := st.uuidK + 1, nowK := st.nowK + 1 } : OrchSt) hev' hdone
        refine ⟨toolUseMsg sup userId sessionId name st.uuidK st.nowK :: d1,
          ?_, he1, hd1, ?_⟩
        · rw [hs1]
          simp
        · intro m hm
          rcases List.mem_cons.mp hm with rfl | hm
          · exact ⟨rfl, rfl, rfl⟩
          · exact hp1 m hm
      | toolResult name =>
        have hstep : stepEvent sup userId sessionId messageId st
            (FeedEvent.toolResult name, none) =
            { st with
              store := st.store ++
                [toolResultMsg sup userId sessionId name st.uuidK st.nowK],
              uuidK := st.uuidK + 1, nowK := st.nowK + 1 } := by
          simp only [stepEvent, addMessage]
        rw [hstep]
        obtain ⟨d1, hs1, he1, hd1, hp1⟩ := ih
          ({ st with
              store := st.store ++
                [toolResultMsg sup userId sessionId name st.uuidK st.nowK],
              uuidK := st.uuidK + 1, nowK := st.nowK + 1 } : OrchSt) hev' hdone
        refine ⟨toolResultMsg sup userId sessionId name st.uuidK st.nowK :: d1,
          ?_, he1, hd1, ?_⟩
        · rw [hs1]
          simp
        · intro m hm
          rcases List.mem_cons.mp hm with rfl | hm
          · exact ⟨rfl, rfl, rfl⟩
          · exact hp1 m hm
      | finish =>
        have hstep : stepEvent sup userId sessionId messageId st
            (FeedEvent.finish, none) = st := by
          simp only [stepEvent]
        rw [hstep]
        exact ih _ hev' hdone

/-- A concrete supply with an injective uuid stream, for instantiating the
orchestrator theorems. -/
def exSupplies : Supplies :=
  { uuid := fun n => String.mk (List.replicate n 'u'), now := fun n => n }

lemma exSupplies_uuid_injective : Function.Injective exSupplies.uuid := by
  intro a b h
  have hd : List.replicate a 'u' = List.replicate b 'u' :=
    congrArg String.data h
  have hl := congrArg List.length hd
  simpa using hl

/-- C1: if the user has no presence entry at any lookup of a run (start, every
feed event, finish), no `ai_started`/`ai_chunk`/`ai_complete`/tool
notification is emitted at all, yet the final `ai`-role message and every
tool record produced by the run are persisted with `delivered=false`. -/
theorem offline_invocation_C1 (sup : Supplies) (userId sessionId ft : String)
    (events : List (FeedEvent × Option String)) (store0 : List Message)
    (hev : ∀ e ∈ events, e.2 = none) :
    (startAIStream sup ⟨userId, sessionId, none, events, RunOutcome.ok ft none⟩
        store0).emitted = [] ∧
      ∃ d fin,
        (startAIStream sup ⟨userId, sessionId, none, events,
            RunOutcome.ok ft none⟩ store0).store = store0 ++ d ++ [fin] ∧
          (∀ m ∈ d, m.delivered = false ∧ m.role = Role.system ∧
            m.message.isToolRecord = true) ∧
          fin.delivered = false ∧ fin.role = Role.ai ∧ fin.id = sup.uuid 0 ∧
          fin.toUser = userId ∧ fin.sessionId = sessionId := by
  obtain ⟨d, hs, he, hdone, hp⟩ :=
    foldl_stepEvent_offline sup userId sessionId (sup.uuid 0) events
      ⟨store0, [], 1, 0, "", false⟩ hev rfl
  refine ⟨he, d, finalAiMsg sup userId sessionId
    (if ft == "" then (events.foldl (stepEvent sup userId sessionId
      (sup.uuid 0)) ⟨store0, [], 1, 0, "", false⟩).textSoFar else ft)
    (events.foldl (stepEvent sup userId sessionId (sup.uuid 0))
      ⟨store0, [], 1, 0, "", false⟩).nowK, ?_, hp, rfl, rfl, rfl, rfl, rfl⟩
  have hstore : (startAIStream sup ⟨userId, sessionId, none, events,
      RunOutcome.ok ft none⟩ store0).store =
      (events.foldl (stepEvent sup userId sessionId (sup.uuid 0))
        ⟨store0, [], 1, 0, "", false⟩).store ++
      [finalAiMsg sup userId sessionId
        (if ft == "" then (events.foldl (stepEvent sup userId sessionId
          (sup.uuid 0)) ⟨store0, [], 1, 0, "", false⟩).textSoFar else ft)
        (events.foldl (stepEvent sup userId sessionId (sup.uuid 0))
          ⟨store0, [], 1, 0, "", false⟩).nowK] := rfl
  rw [hstore, hs]

/-- Witness for C1: a fully offline run with one tool call, one tool result
and one delta. -/
theorem offline_invocation_C1_witness :
    (startAIStream exSupplies ⟨"alice", "s1", none,
        [(FeedEvent.toolCall "get_weather", none),
         (FeedEvent.toolResult "get_weather", none),
         (FeedEvent.textDelta (some "hi"), none)],
        RunOutcome.ok "ok" none⟩ []).emitted = [] ∧
      ∃ d fin,
        (startAIStream exSupplies ⟨"alice", "s1", none,
            [(FeedEvent.toolCall "get_weather", none),
             (FeedEvent.toolResult "get_weather", none),
             (FeedEvent.textDelta (some "hi"), none)],
            RunOutcome.ok "ok" none⟩ []).store = [] ++ d ++ [fin] ∧
          (∀ m ∈ d, m.delivered = false ∧ m.role = Role.system ∧
            m.message.isToolRecord = true) ∧
          fin.delivered = false ∧ fin.role = Role.ai ∧
          fin.id = exSupplies.uuid 0 ∧
          fin.toUser = "alice" ∧ fin.sessionId = "s1" :=
  offline_invocation_C1 exSupplies "alice" "s1" "ok"
    [(FeedEvent.toolCall "get_weather", none),
     (FeedEvent.toolResult "get_weather", none),
     (FeedEvent.textDelta (some "hi"), none)] [] (by decide)


lemma initialEmitted_not_complete (sup : Supplies) (sessionId : String)
    (presStart : Option String) :
    ∀ n ∈ initialEmitted sup sessionId presStart, n.isComplete = false := by
  cases presStart with
  | some sk =>
    intro n hn
    simp only [initialEmitted] at hn
    rcases List.mem_singleton.mp hn with rfl
    rfl
  | none =>
    intro n hn
    simp only [initialEmitted] at hn
    cases hn

lemma loopSt_spec (sup : Supplies) (userId sessionId : String)
    (presStart : Option String) (events : List (FeedEvent × Option String))
    (store0 : List Message)
    (hfresh : ∀ m ∈ store0, ∀ n, m.id ≠ sup.uuid n) :
    ∃ d, LoopInv sup store0 (loopSt sup userId sessionId presStart events store0) d ∧
      (loopSt sup userId sessionId presStart events store0).textSoFar = deltasConcat events := by
  have hinit : LoopInv sup store0
      ⟨store0, initialEmitted sup sessionId presStart, 1, 0, "", false⟩ [] := by
    refine ⟨by simp, rfl, le_refl 1, ?_, ?_⟩
    · intro m hm
      cases hm
    · exact initialEmitted_not_complete sup sessionId presStart
  obtain ⟨d, hinv, htext⟩ := foldl_stepEvent_inv sup userId sessionId
    (sup.uuid 0) store0 hfresh events
    ⟨store0, initialEmitted sup sessionId presStart, 1, 0, "", false⟩ [] hinit
  have htext2 : (loopSt sup userId sessionId presStart events store0).textSoFar = "" ++ deltasConcat events := htext
  have hinv2 : LoopInv sup store0 (loopSt sup userId sessionId presStart events store0) d := hinv
  refine ⟨d, hinv2, ?_⟩
  rw [htext2]
  simp

/-- The `ai`-role artifact after `markMessagesDelivered` stamps it at finish
time. -/
def markedFinalMsg (sup : Supplies) (userId sessionId text1 : String)
    (nowK : Nat) : Message :=
  { finalAiMsg sup userId sessionId text1 nowK with
    delivered := true, deliveredAt := some (sup.now (nowK + 1)) }

lemma markMessagesDelivered_singleton_undelivered (u : String) (now : Nat)
    (m : Message) (hid : m.id = u) (hdel : m.delivered = false) :
    markMessagesDelivered [u] now [m] =
      [{ m with delivered := true, deliveredAt := some now }] := by
  rw [markMessagesDelivered_map]
  simp [markOne, hid, hdel]

lemma startAIStream_ok_none (sup : Supplies) (userId sessionId : String)
    (presStart : Option String) (events : List (FeedEvent × Option String))
    (ft : String) (store0 : List Message) :
    startAIStream sup ⟨userId, sessionId, presStart, events,
        RunOutcome.ok ft none⟩ store0 =
      { store := (loopSt sup userId sessionId presStart events store0).store ++
          [finalAiMsg sup userId sessionId
            (if ft == "" then (loopSt sup userId sessionId presStart events store0).textSoFar else ft) (loopSt sup userId sessionId presStart events store0).nowK],
        emitted := (loopSt sup userId sessionId presStart events store0).emitted } := rfl

lemma startAIStream_ok_some (sup : Supplies) (userId sessionId : String)
    (presStart : Option String) (events : List (FeedEvent × Option String))
    (ft sid : String) (store0 : List Message) :
    startAIStream sup ⟨userId, sessionId, presStart, events,
        RunOutcome.ok ft (some sid)⟩ store0 =
      { store := markMessagesDelivered [sup.uuid 0]
          (sup.now ((loopSt sup userId sessionId presStart events store0).nowK + 1))
          ((loopSt sup userId sessionId presStart events store0).store ++
            [finalAiMsg sup userId sessionId
              (if ft == "" then (loopSt sup userId sessionId presStart events store0).textSoFar else ft) (loopSt sup userId sessionId presStart events store0).nowK]),
        emitted := (loopSt sup userId sessionId presStart events store0).emitted ++
          [Notification.ai_complete (sup.uuid 0) sessionId
            (if ft == "" then (loopSt sup userId sessionId presStart events store0).textSoFar else ft)] } := rfl

/-- C2: on a successful run the orchestrator persists exactly one `ai`-role
text record under the artifact id (`uuid 0`) allocated at start — everything
else the run appended is a `system` tool record — and its content is the
engine's aggregated final text, falling back to the concatenation of the
received text-deltas when the aggregate is empty; when the user is present at
finish time, an `ai_complete` carrying that id and text is emitted and the
record is marked delivered. Ids are assumed fresh (`crypto.randomUUID`). -/
theorem finalize_persists_C2 (sup : Supplies) (userId sessionId ft : String)
    (presStart presFin : Option String)
    (events : List (FeedEvent × Option String)) (store0 : List Message)
    (hInj : Function.Injective sup.uuid)
    (hfresh : ∀ m ∈ store0, ∀ n, m.id ≠ sup.uuid n) :
    ∃ d fin,
      (startAIStream sup ⟨userId, sessionId, presStart, events,
          RunOutcome.ok ft presFin⟩ store0).store = store0 ++ d ++ [fin] ∧
        (∀ m ∈ d, m.role = Role.system ∧ m.message.isToolRecord = true) ∧
        fin.role = Role.ai ∧ fin.id = sup.uuid 0 ∧ fin.toUser = userId ∧
        fin.sessionId = sessionId ∧
        fin.message = MessageBody.text
          (if ft == "" then deltasConcat events else ft) ∧
        (presFin = none → fin.delivered = false) ∧
        (∀ sid, presFin = some sid → fin.delivered = true ∧
          Notification.ai_complete (sup.uuid 0) sessionId
              (if ft == "" then deltasConcat events else ft) ∈
            (startAIStream sup ⟨userId, sessionId, presStart, events,
              RunOutcome.ok ft presFin⟩ store0).emitted) := by
  obtain ⟨d, hinv, htext⟩ :=
    loopSt_spec sup userId sessionId presStart events store0 hfresh
  obtain ⟨hs, hdone, huuid, hd, hem⟩ := hinv
  have htxt1 : (if ft == "" then (loopSt sup userId sessionId presStart events store0).textSoFar else ft) =
      (if ft == "" then deltasConcat events else ft) := by
    rw [htext]
  cases presFin with
  | none =>
    rw [startAIStream_ok_none, htxt1]
    refine ⟨d, finalAiMsg sup userId sessionId
      (if ft == "" then deltasConcat events else ft) (loopSt sup userId sessionId presStart events store0).nowK,
      ?_, fun m hm => ⟨(hd m hm).1, (hd m hm).2.1⟩, rfl, rfl, rfl, rfl, rfl,
      fun _ => rfl, fun sid hsid => by cases hsid⟩
    show (loopSt sup userId sessionId presStart events store0).store ++ _ = _
    rw [hs]
  | some sid0 =>
    have hfr0 : ∀ m ∈ store0,
        (([sup.uuid 0] : List String).contains m.id) = false := by
      intro m hm
      simp [List.contains_cons, hfresh m hm 0]
    have hfrd : ∀ m ∈ d,
        (([sup.uuid 0] : List String).contains m.id) = false := by
      intro m hm
      obtain ⟨_, _, k, hk1, _, hk3⟩ := hd m hm
      have hne : sup.uuid k ≠ sup.uuid 0 := by
        intro hcon
        have hk0 := hInj hcon
        omega
      simp [List.contains_cons, hk3, hne]
    rw [startAIStream_ok_some, htxt1]
    refine ⟨d, markedFinalMsg sup userId sessionId
      (if ft == "" then deltasConcat events else ft) (loopSt sup userId sessionId presStart events store0).nowK,
      ?_, ?_, rfl, rfl, rfl, rfl, rfl, ?_, ?_⟩
    · show markMessagesDelivered [sup.uuid 0] (sup.now ((loopSt sup userId sessionId presStart events store0).nowK + 1))
        ((loopSt sup userId sessionId presStart events store0).store ++ [finalAiMsg sup userId sessionId
          (if ft == "" then deltasConcat events else ft) (loopSt sup userId sessionId presStart events store0).nowK]) = _
      rw [hs, markMessagesDelivered_append,
        markMessagesDelivered_append,
        markMessagesDelivered_of_fresh _ _ _ hfr0,
        markMessagesDelivered_of_fresh _ _ _ hfrd,
        markMessagesDelivered_singleton_undelivered (sup.uuid 0)
          (sup.now ((loopSt sup userId sessionId presStart events store0).nowK + 1))
          (finalAiMsg sup userId sessionId
            (if ft == "" then deltasConcat events else ft) (loopSt sup userId sessionId presStart events store0).nowK)
          rfl rfl]
      rfl
    · exact fun m hm => ⟨(hd m hm).1, (hd m hm).2.1⟩
    · intro h
      cases h
    · intro sid hsid
      refine ⟨rfl, ?_⟩
      show Notification.ai_complete (sup.uuid 0) sessionId _ ∈
        (loopSt sup userId sessionId presStart events store0).emitted ++ [Notification.ai_complete (sup.uuid 0) sessionId _]
      simp

/-- Witness for C2: a present-at-finish run with one tool call and one delta,
with an empty aggregate exercising the delta fallback. -/
theorem finalize_persists_C2_witness :
    ∃ d fin,
      (startAIStream exSupplies ⟨"alice", "s1", some "sock1",
          [(FeedEvent.toolCall "get_weather", some "sock1"),
           (FeedEvent.textDelta (some "hello"), some "sock1")],
          RunOutcome.ok "" (some "sock1")⟩ []).store = [] ++ d ++ [fin] ∧
        (∀ m ∈ d, m.role = Role.system ∧ m.message.isToolRecord = true) ∧
        fin.role = Role.ai ∧ fin.id = exSupplies.uuid 0 ∧
        fin.toUser = "alice" ∧ fin.sessionId = "s1" ∧
        fin.message = MessageBody.text
          (if ("" : String) == "" then deltasConcat
            [(FeedEvent.toolCall "get_weather", some "sock1"),
             (FeedEvent.textDelta (some "hello"), some "sock1")] else "") ∧
        ((some "sock1" : Option String) = none → fin.delivered = false) ∧
        (∀ sid, (some "sock1" : Option String) = some sid →
          fin.delivered = true ∧
          Notification.ai_complete (exSupplies.uuid 0) "s1"
              (if ("" : String) == "" then deltasConcat
                [(FeedEvent.toolCall "get_weather", some "sock1"),
                 (FeedEvent.textDelta (some "hello"), some "sock1")] else "") ∈
            (startAIStream exSupplies ⟨"alice", "s1", some "sock1",
              [(FeedEvent.toolCall "get_weather", some "sock1"),
               (FeedEvent.textDelta (some "hello"), some "sock1")],
              RunOutcome.ok "" (some "sock1")⟩ []).emitted) :=
  finalize_persists_C2 exSupplies "alice" "s1" "" (some "sock1") (some "sock1")
    [(FeedEvent.toolCall "get_weather", some "sock1"),
     (FeedEvent.textDelta (some "hello"), some "sock1")] []
    exSupplies_uuid_injective (fun m hm => absurd hm (List.not_mem_nil m))



lemma startAIStream_err_feed (sup : Supplies) (userId sessionId : String)
    (presStart : Option String) (events : List (FeedEvent × Option String))
    (store0 : List Message) :
    startAIStream sup ⟨userId, sessionId, presStart, events,
        RunOutcome.errorDuringFeed⟩ store0 =
      { store := (loopSt sup userId sessionId presStart events store0).store, emitted := (loopSt sup userId sessionId presStart events store0).emitted } := rfl

lemma startAIStream_err_final (sup : Supplies) (userId sessionId : String)
    (presStart : Option String) (events : List (FeedEvent × Option String))
    (store0 : List Message) :
    startAIStream sup ⟨userId, sessionId, presStart, events,
        RunOutcome.errorAtFinalText⟩ store0 =
      { store := (loopSt sup userId sessionId presStart events store0).store, emitted := (loopSt sup userId sessionId presStart events store0).emitted } := rfl

/-- C6: a run aborted by an error thrown during feed consumption or while
resolving the final text persists nothing under the run's artifact id — in
particular no `ai`-role final artifact — and emits no completion (and the
protocol defines no failure notification at all); the tool records persisted
before the error remain in the log, after the unchanged prior contents. Ids
are assumed fresh (`crypto.randomUUID`). -/
theorem error_run_C6 (sup : Supplies) (userId sessionId : String)
    (presStart : Option String) (events : List (FeedEvent × Option String))
    (outcome : RunOutcome) (store0 : List Message)
    (hout : outcome = RunOutcome.errorDuringFeed ∨
      outcome = RunOutcome.errorAtFinalText)
    (hInj : Function.Injective sup.uuid)
    (hfresh : ∀ m ∈ store0, ∀ n, m.id ≠ sup.uuid n) :
    ∃ d,
      (startAIStream sup ⟨userId, sessionId, presStart, events, outcome⟩
          store0).store = store0 ++ d ∧
        (∀ m ∈ d, m.role = Role.system ∧ m.message.isToolRecord = true ∧
          m.id ≠ sup.uuid 0) ∧
        (∀ n ∈ (startAIStream sup ⟨userId, sessionId, presStart, events,
            outcome⟩ store0).emitted, n.isComplete = false) := by
  obtain ⟨d, hinv, htext⟩ :=
    loopSt_spec sup userId sessionId presStart events store0 hfresh
  obtain ⟨hs, hdone, huuid, hd, hem⟩ := hinv
  have hprops : ∀ m ∈ d, m.role = Role.system ∧
      m.message.isToolRecord = true ∧ m.id ≠ sup.uuid 0 := by
    intro m hm
    obtain ⟨hr, hb, k, hk1, hk2, hk3⟩ := hd m hm
    refine ⟨hr, hb, ?_⟩
    rw [hk3]
    intro hcon
    have hk0 := hInj hcon
    omega
  rcases hout with rfl | rfl
  · rw [startAIStream_err_feed]
    exact ⟨d, hs, hprops, hem⟩
  · rw [startAIStream_err_final]
    exact ⟨d, hs, hprops, hem⟩

/-- Witness for C6: a run that fails during feed consumption after one
delivered tool call. -/
theorem error_run_C6_witness :
    ∃ d,
      (startAIStream exSupplies ⟨"alice", "s1", some "sock1",
          [(FeedEvent.toolCall "get_weather", some "sock1")],
          RunOutcome.errorDuringFeed⟩ []).store = [] ++ d ∧
        (∀ m ∈ d, m.role = Role.system ∧ m.message.isToolRecord = true ∧
          m.id ≠ exSupplies.uuid 0) ∧
        (∀ n ∈ (startAIStream exSupplies ⟨"alice", "s1", some "sock1",
            [(FeedEvent.toolCall "get_weather", some "sock1")],
            RunOutcome.errorDuringFeed⟩ []).emitted, n.isComplete = false) :=
  error_run_C6 exSupplies "alice" "s1" (some "sock1")
    [(FeedEvent.toolCall "get_weather", some "sock1")]
    RunOutcome.errorDuringFeed [] (Or.inl rfl) exSupplies_uuid_injective
    (fun m hm => absurd hm (List.not_mem_nil m))


end SocketTest
